import Mathlib

/-!
# Verification of provider-orgmapper's org-mapping core

A shallow embedding of the Go sources of `loafoe/provider-orgmapper`:

* `internal/grafana/sso.go` — the mapping codec (`BuildOrgMapping`,
  `OrgMappingContains`, `escapeColon`) and the read-modify-write sync
  (`getOrInitSettings`, `SyncOrgMapping`);
* `internal/controller/tenant/tenant.go` — the reconciliation entry points
  (`Observe`, `Create`, `Update`), drift detection (`isGrafanaDrifted`),
  the uniqueness guard (`validateUniqueTenantID`), status mirroring
  (`syncStatus`, `isUpToDate`, `slicesEqual`).

Go strings are modelled as Lean `String`, with the relevant pieces of the
`strings` package reproduced on the underlying character list:
`strings.Split(s, ",")` is `List.splitOn ','`, `strings.Join(es, ",")` is
`List.intercalate [',']`, `strings.TrimSpace` drops leading and trailing
whitespace characters, and `strings.ReplaceAll(s, ":", "\x5c:")` expands each
colon into a backslash-colon pair.

Effectful code (the Grafana SSO client and the Kubernetes list call) is
modelled by explicit state passing: an `SSOWorld` fixes the outcome of the
next `GetProviderSettings` and `UpdateProviderSettings` calls, counts the
fetches performed, and logs every settings object successfully written.
-/

namespace OrgMapper

/-! ## Go string primitives -/

/-- The whitespace test used by Go's `strings.TrimSpace`: `unicode.IsSpace`,
i.e. the full Unicode White_Space set — tab through carriage return, space,
next line, no-break space, ogham space mark, the en-quad..hair-space block,
line/paragraph separator, narrow no-break space, medium mathematical space
and ideographic space. -/
def isSpaceGo (c : Char) : Bool :=
  (0x09 ≤ c.toNat && c.toNat ≤ 0x0D) || c.toNat = 0x20 || c.toNat = 0x85 ||
    c.toNat = 0xA0 || c.toNat = 0x1680 ||
    (0x2000 ≤ c.toNat && c.toNat ≤ 0x200A) ||
    c.toNat = 0x2028 || c.toNat = 0x2029 || c.toNat = 0x202F ||
    c.toNat = 0x205F || c.toNat = 0x3000

/-- `strings.TrimSpace`: drop whitespace from both ends of the string. -/
def trimSpace (s : String) : String :=
  ⟨((s.data.dropWhile isSpaceGo).reverse.dropWhile isSpaceGo).reverse⟩

/-- Character expansion performed by `escapeColon`'s
`strings.ReplaceAll(s, ":", "\x5c:")`: each colon becomes backslash-colon. -/
def escL : List Char → List Char
  | [] => []
  | c :: rest => (if c = ':' then ['\\', ':'] else [c]) ++ escL rest

/-- `escapeColon` from `sso.go`: escape colons for Grafana's org_mapping. -/
def escapeColon (s : String) : String := ⟨escL s.data⟩

/-- `strings.Split(s, ",")`. -/
def splitOnComma (s : String) : List String := (s.data.splitOn ',').map String.mk

/-- `strings.Join(entries, ",")`. -/
def joinComma (entries : List String) : String :=
  ⟨[','].intercalate (entries.map String.data)⟩

/-! ## The mapping codec (`internal/grafana/sso.go`) -/

/-- `TenantMapping` from `sso.go`: the fields needed to produce org_mapping
entries for one tenant. -/
structure TenantMapping where
  orgID : String
  viewerGroups : List String
  editorGroups : List String
deriving DecidableEq, Repr

/-- The entry accumulation loop of `BuildOrgMapping`: for each tenant append
one `subject:orgID:Viewer` entry per viewer group and then one
`subject:orgID:Editor` entry per editor group, the subject colon-escaped. -/
def buildEntries : List TenantMapping → List String → List String
  | [], entries => entries
  | t :: rest, entries =>
      buildEntries rest
        ((entries ++ t.viewerGroups.map (fun g => escapeColon g ++ ":" ++ t.orgID ++ ":Viewer"))
          ++ t.editorGroups.map (fun g => escapeColon g ++ ":" ++ t.orgID ++ ":Editor"))

/-- `BuildOrgMapping` from `sso.go`: the comma-separated org_mapping value
computed from a list of tenant mappings. -/
def BuildOrgMapping (tenants : List TenantMapping) : String :=
  joinComma (buildEntries tenants [])

/-- `OrgMappingContains` from `sso.go`: split the document on commas and
test whether some part, whitespace-trimmed, equals the self-referential
entry `orgID:orgID:Viewer`. -/
def OrgMappingContains (orgMapping orgID : String) : Bool :=
  (splitOnComma orgMapping).any
    (fun part => trimSpace part == orgID ++ ":" ++ orgID ++ ":Viewer")

/-! ## The SSO settings client model -/

/-- An opaque settings value: either a string or some other JSON-ish value
(identified by a tag so that distinct opaque values exist). -/
inductive SettingsVal where
  | str (s : String)
  | blob (n : Nat)
deriving DecidableEq, Repr

/-- The settings object, a Go `map[string]interface\x7b\x7d`, modelled as an
association list. -/
abbrev Settings := List (String × SettingsVal)

/-- Go map read `m[k]`. -/
def lookupSettings : Settings → String → Option SettingsVal
  | [], _ => none
  | (k', v) :: rest, k => if k' = k then some v else lookupSettings rest k

/-- Go map write `m[k] = v`: replace the binding if the key is present,
otherwise add it. -/
def setKey (m : Settings) (k : String) (v : SettingsVal) : Settings :=
  if m.any (fun p => p.1 == k) then
    m.map (fun p => if p.1 = k then (k, v) else p)
  else m ++ [(k, v)]

/-- The payload of a successful `GetProviderSettings` call: its `Settings`
field is `interface\x7b\x7d`, so it may or may not be a string map. -/
inductive Payload where
  | map (m : Settings)
  | nonMap
deriving DecidableEq, Repr

/-- Outcome of the next `GetProviderSettings` call against the external
platform: success with a payload, a 404, or any other error. -/
inductive FetchOutcome where
  | ok (p : Payload)
  | notFound
  | failure
deriving DecidableEq, Repr

/-- The state of the modelled SSO client: the behaviour of the external
endpoint (`fetch`, `updateFails`) plus an observation log — how many times
settings were fetched and every settings object successfully written. -/
structure SSOWorld where
  fetch : FetchOutcome
  updateFails : Bool
  fetchCount : Nat
  written : List Settings
deriving DecidableEq, Repr

/-- Record one `GetProviderSettings` call. -/
def recordFetch (w : SSOWorld) : SSOWorld := { w with fetchCount := w.fetchCount + 1 }

/-- Errors produced inside `SyncOrgMapping`. -/
inductive SyncErr where
  | fetchFailed
  | notAMap
  | updateFailed
deriving DecidableEq, Repr

/-- `getOrInitSettings` from `sso.go`: fetch the current SSO settings; a 404
yields an empty map, any other fetch error propagates, and a payload that is
not a string map is an error. -/
def getOrInitSettings (w : SSOWorld) : Except SyncErr Settings × SSOWorld :=
  match w.fetch with
  | .notFound => (.ok [], recordFetch w)
  | .failure => (.error .fetchFailed, recordFetch w)
  | .ok (.map m) => (.ok m, recordFetch w)
  | .ok .nonMap => (.error .notAMap, recordFetch w)

/-- `SyncOrgMapping` from `sso.go`: fetch settings, overwrite the
`orgMapping` key with the freshly built document, and write the whole
object back. -/
def SyncOrgMapping (w : SSOWorld) (tenants : List TenantMapping) :
    Except SyncErr Unit × SSOWorld :=
  match getOrInitSettings w with
  | (.error e, w1) => (.error e, w1)
  | (.ok settings, w1) =>
      let merged := setKey settings "orgMapping" (.str (BuildOrgMapping tenants))
      if w1.updateFails then (.error .updateFailed, w1)
      else (.ok (), { w1 with written := w1.written ++ [merged] })

/-! ## The tenant resource (`apis/tenant/v1alpha1`) -/

/-- `RetentionPolicy`: four opaque duration strings. -/
structure RetentionPolicy where
  logs : String
  metrics : String
  traces : String
  profiles : String
deriving DecidableEq, Repr

/-- `TenantParameters`: the desired state (`spec.forProvider`). -/
structure TenantParameters where
  tenantID : String
  orgID : String
  admins : List String
  viewerGroups : List String
  editorGroups : List String
  retention : RetentionPolicy
deriving DecidableEq, Repr

/-- `TenantObservation`: the observed state (`status.atProvider`). -/
structure TenantObservation where
  tenantID : String
  orgID : String
  admins : List String
  viewerGroups : List String
  editorGroups : List String
  retention : RetentionPolicy
  lastUpdated : String
deriving DecidableEq, Repr

/-- A `Tenant` custom resource: its UID, the `crossplane.io/external-name`
annotation (empty string when unset, as `meta.GetExternalName` reports it),
whether a deletion timestamp is set, the desired spec and the observation. -/
structure Tenant where
  uid : Nat
  externalName : String
  deletionTimestamp : Bool
  forProvider : TenantParameters
  atProvider : TenantObservation
deriving DecidableEq, Repr

/-! ## The controller (`internal/controller/tenant/tenant.go`) -/

/-- `slicesEqual`: compare two string slices, treating nil and empty as
equivalent and comparing elementwise otherwise. -/
def slicesEqual (a b : List String) : Bool :=
  if a.length = 0 ∧ b.length = 0 then true
  else if a.length ≠ b.length then false
  else (a.zip b).all (fun p => p.1 == p.2)

/-- `isUpToDate`: field-by-field comparison of `spec.forProvider` against
`status.atProvider` (the `lastUpdated` stamp is not compared). -/
def isUpToDate (cr : Tenant) : Bool :=
  if cr.forProvider.tenantID ≠ cr.atProvider.tenantID then false
  else if cr.forProvider.orgID ≠ cr.atProvider.orgID then false
  else if cr.forProvider.retention ≠ cr.atProvider.retention then false
  else if slicesEqual cr.forProvider.admins cr.atProvider.admins = false then false
  else if slicesEqual cr.forProvider.viewerGroups cr.atProvider.viewerGroups = false then false
  else if slicesEqual cr.forProvider.editorGroups cr.atProvider.editorGroups = false then false
  else true

/-- `syncStatus`: copy the spec fields into the observation and stamp
`lastUpdated` with the current time (passed in as `now`). -/
def syncStatus (cr : Tenant) (now : String) : Tenant :=
  { cr with atProvider :=
    { tenantID := cr.forProvider.tenantID
      orgID := cr.forProvider.orgID
      admins := cr.forProvider.admins
      viewerGroups := cr.forProvider.viewerGroups
      editorGroups := cr.forProvider.editorGroups
      retention := cr.forProvider.retention
      lastUpdated := now } }

/-- Errors surfaced by the controller's mutation paths. -/
inductive CtrlErr where
  | listError
  | conflict (tenantID : String)
  | syncFailed (e : SyncErr)
deriving DecidableEq, Repr

/-- The `grafana.TenantMapping` built for one listed tenant inside
`syncGrafanaOrgMapping`. -/
def tenantMappingOf (t : Tenant) : TenantMapping :=
  ⟨t.forProvider.orgID, t.forProvider.viewerGroups, t.forProvider.editorGroups⟩

/-- `syncGrafanaOrgMapping`: list all tenants (`cluster`; `listFails` models
a failing List call), build the mappings — skipping the tenant being deleted
when `deleting` — and invoke `SyncOrgMapping`. -/
def syncGrafanaOrgMapping (cluster : List Tenant) (listFails : Bool) (cr : Tenant)
    (deleting : Bool) (w : SSOWorld) : Except CtrlErr Unit × SSOWorld :=
  if listFails then (.error .listError, w)
  else
    let mappings :=
      (cluster.filter (fun t => !(deleting && t.uid == cr.uid))).map tenantMappingOf
    match SyncOrgMapping w mappings with
    | (.error e, w1) => (.error (.syncFailed e), w1)
    | (.ok _, w1) => (.ok (), w1)

/-- `validateUniqueTenantID`: error when another tenant (different UID)
holds the same `tenantId`. -/
def validateUniqueTenantID (cluster : List Tenant) (listFails : Bool) (cr : Tenant) :
    Except CtrlErr Unit :=
  if listFails then .error .listError
  else if cluster.any
      (fun t => t.uid != cr.uid && t.forProvider.tenantID == cr.forProvider.tenantID) then
    .error (.conflict cr.forProvider.tenantID)
  else .ok ()

/-- `meta.SetExternalName`. -/
def setExternalName (cr : Tenant) (name : String) : Tenant :=
  { cr with externalName := name }

/-- Result of a `Create` or `Update` call: the returned error (if any), the
resource as mutated in place, and the SSO world afterwards. -/
structure MutationResult where
  res : Except CtrlErr Unit
  cr : Tenant
  world : SSOWorld
deriving Repr

/-- `Create` from `tenant.go`: enforce tenant-ID uniqueness, then set the
external name, copy spec into status, and sync Grafana; a sync failure fails
the Create. -/
def Create (cluster : List Tenant) (listFails : Bool) (cr : Tenant) (now : String)
    (w : SSOWorld) : MutationResult :=
  match validateUniqueTenantID cluster listFails cr with
  | .error e => ⟨.error e, cr, w⟩
  | .ok _ =>
      let cr1 := syncStatus (setExternalName cr cr.forProvider.tenantID) now
      match syncGrafanaOrgMapping cluster listFails cr1 false w with
      | (.error e, w1) => ⟨.error e, cr1, w1⟩
      | (.ok _, w1) => ⟨.ok (), cr1, w1⟩

/-- `Update` from `tenant.go`: copy spec into status, then sync Grafana
best-effort — a sync failure is logged and swallowed. -/
def Update (cluster : List Tenant) (listFails : Bool) (cr : Tenant) (now : String)
    (w : SSOWorld) : MutationResult :=
  let cr1 := syncStatus cr now
  let r := syncGrafanaOrgMapping cluster listFails cr1 false w
  ⟨.ok (), cr1, r.2⟩

/-- Errors produced inside `isGrafanaDrifted`. -/
inductive DriftErr where
  | fetchFailed
deriving DecidableEq, Repr

/-- The Go type assertion with ignored failure flag,
`orgMapping, _ := settings["orgMapping"].(string)`: a missing key or a
non-string value reads as the empty string. -/
def extractOrgMapping (settings : Settings) : String :=
  match lookupSettings settings "orgMapping" with
  | some (.str s) => s
  | _ => ""

/-- `isGrafanaDrifted` from `tenant.go`: with no viewer or editor groups
there is nothing to check; otherwise fetch the settings — 404 and a non-map
payload count as drift, a missing or non-string `orgMapping` key reads as
the empty document, and drift is the absence of the tenant's orgID from the
document. -/
def isGrafanaDrifted (cr : Tenant) (w : SSOWorld) : Except DriftErr Bool × SSOWorld :=
  if cr.forProvider.viewerGroups.length = 0 ∧ cr.forProvider.editorGroups.length = 0 then
    (.ok false, w)
  else
    match w.fetch with
    | .notFound => (.ok true, recordFetch w)
    | .failure => (.error .fetchFailed, recordFetch w)
    | .ok .nonMap => (.ok true, recordFetch w)
    | .ok (.map settings) =>
        (.ok (!OrgMappingContains (extractOrgMapping settings) cr.forProvider.orgID),
          recordFetch w)

/-- The `managed.ExternalObservation` returned by `Observe`, with the SSO
world afterwards. -/
structure Observation where
  resourceExists : Bool
  resourceUpToDate : Bool
  world : SSOWorld
deriving Repr

/-- `Observe` from `tenant.go`: an empty external name means the resource
does not exist; a deletion timestamp triggers a best-effort unsync and
reports absence; otherwise compare spec against status and, when up to
date, additionally run the Grafana drift check — drift flips the result to
not-up-to-date while a drift-check error is ignored. -/
def Observe (cluster : List Tenant) (listFails : Bool) (cr : Tenant) (w : SSOWorld) :
    Observation :=
  if cr.externalName = "" then ⟨false, false, w⟩
  else if cr.deletionTimestamp then
    let r := syncGrafanaOrgMapping cluster listFails cr true w
    ⟨false, false, r.2⟩
  else
    if isUpToDate cr then
      match isGrafanaDrifted cr w with
      | (.error _, w1) => ⟨true, true, w1⟩
      | (.ok drifted, w1) => ⟨true, !drifted, w1⟩
    else ⟨true, false, w⟩

/-! ## String and list helper lemmas -/

theorem mk_data (s : String) : String.mk s.data = s := rfl

theorem string_ext {a b : String} (h : a.data = b.data) : a = b :=
  congrArg String.mk h

theorem data_app (a b : String) : (a ++ b).data = a.data ++ b.data :=
  String.data_append a b

theorem dropWhile_eq_self_of_head {p : Char → Bool} {l : List Char}
    (h : l.head?.all (fun c => !p c) = true) : l.dropWhile p = l := by
  cases l with
  | nil => rfl
  | cons c rest =>
      simp only [List.head?_cons, Option.all_some, Bool.not_eq_true'] at h
      simp [List.dropWhile_cons, h]

theorem trimSpace_eq_self {s : String}
    (h1 : s.data.head?.all (fun c => !isSpaceGo c) = true)
    (h2 : s.data.reverse.head?.all (fun c => !isSpaceGo c) = true) :
    trimSpace s = s := by
  unfold trimSpace
  rw [dropWhile_eq_self_of_head h1, dropWhile_eq_self_of_head h2,
    List.reverse_reverse]

theorem append_sep_inj {c : Char} :
    ∀ {a b as bs : List Char},
      a ++ c :: as = b ++ c :: bs → c ∉ a → c ∉ b → a = b ∧ as = bs := by
  intro a
  induction a with
  | nil =>
      intro b as bs h _ hb
      cases b with
      | nil => simpa using h
      | cons y b' =>
          simp only [List.nil_append, List.cons_append, List.cons.injEq] at h
          exact absurd (h.1 ▸ List.mem_cons_self y b') hb
  | cons x a' ih =>
      intro b as bs h ha hb
      cases b with
      | nil =>
          simp only [List.nil_append, List.cons_append, List.cons.injEq] at h
          exact absurd (h.1 ▸ List.mem_cons_self x a') ha
      | cons y b' =>
          simp only [List.cons_append, List.cons.injEq] at h
          obtain ⟨rfl, h2⟩ := h
          have hr := ih h2 (fun hm => ha (List.mem_cons_of_mem _ hm))
            (fun hm => hb (List.mem_cons_of_mem _ hm))
          exact ⟨by rw [hr.1], hr.2⟩

/-! ## Codec lemmas -/

/-- Spec-side description of `Encode` (spec §4.1) for one tenant: one entry
per viewer group then one entry per editor group, in input order, each
`subject:orgID:Role` with the subject colon-escaped. -/
def specEntriesOfTenant (t : TenantMapping) : List String :=
  t.viewerGroups.map (fun g => escapeColon g ++ ":" ++ t.orgID ++ ":Viewer")
    ++ t.editorGroups.map (fun g => escapeColon g ++ ":" ++ t.orgID ++ ":Editor")

theorem buildEntries_eq (ts : List TenantMapping) (acc : List String) :
    buildEntries ts acc = acc ++ ts.flatMap specEntriesOfTenant := by
  induction ts generalizing acc with
  | nil => simp [buildEntries]
  | cons t rest ih =>
      simp [buildEntries, ih, specEntriesOfTenant, List.append_assoc]

theorem buildOrgMapping_flatMap (ts : List TenantMapping) :
    BuildOrgMapping ts = joinComma (ts.flatMap specEntriesOfTenant) := by
  unfold BuildOrgMapping
  rw [buildEntries_eq]
  rfl

/-- Escaping discipline of `escapeColon`'s output, as a scan: no colon may
appear unless the previous character is a backslash (the `prev` argument
seeds the character before the list). -/
def colonsEscapedFrom : Char → List Char → Bool
  | _, [] => true
  | prev, c :: rest => (c != ':' || prev == '\\') && colonsEscapedFrom c rest

theorem escL_colonsEscaped (l : List Char) (p : Char) :
    colonsEscapedFrom p (escL l) = true := by
  induction l generalizing p with
  | nil => rfl
  | cons c rest ih =>
      by_cases hc : c = ':'
      · subst hc
        simp [escL, colonsEscapedFrom, ih]
      · simp [escL, hc, colonsEscapedFrom, ih]

theorem mem_escL {c : Char} : ∀ {l : List Char}, c ∈ escL l → c ∈ l ∨ c = '\\' ∨ c = ':' := by
  intro l
  induction l with
  | nil => intro h; simp [escL] at h
  | cons d rest ih =>
      intro h
      by_cases hd : d = ':'
      · rw [escL, if_pos hd] at h
        rcases List.mem_append.1 h with h1 | h2
        · simp only [List.mem_cons, List.not_mem_nil, or_false] at h1
          rcases h1 with h1 | h1
          · exact Or.inr (Or.inl h1)
          · exact Or.inr (Or.inr h1)
        · rcases ih h2 with h' | h'
          · exact Or.inl (List.mem_cons_of_mem _ h')
          · exact Or.inr h'
      · rw [escL, if_neg hd, List.singleton_append] at h
        rcases List.mem_cons.1 h with h1 | h2
        · exact Or.inl (h1 ▸ List.mem_cons_self d rest)
        · rcases ih h2 with h' | h'
          · exact Or.inl (List.mem_cons_of_mem _ h')
          · exact Or.inr h'

theorem escL_of_no_colon : ∀ {l : List Char}, ':' ∉ l → escL l = l := by
  intro l
  induction l with
  | nil => intro _; rfl
  | cons c rest ih =>
      intro h
      have hc : c ≠ ':' := fun hcc => h (hcc ▸ List.mem_cons_self c rest)
      rw [escL, if_neg hc, List.singleton_append,
        ih (fun hm => h (List.mem_cons_of_mem _ hm))]

theorem escL_no_colon_out : ∀ {l : List Char}, ':' ∉ escL l → escL l = l := by
  intro l
  induction l with
  | nil => intro _; rfl
  | cons c rest ih =>
      intro h
      by_cases hc : c = ':'
      · subst hc
        exact absurd (by simp [escL]) h
      · rw [escL, if_neg hc, List.singleton_append] at h ⊢
        rw [ih (fun hm => h (List.mem_cons_of_mem _ hm))]

/-- The character list of a serialized entry `subject:orgID:role`, with the
subject already escaped. -/
def entryData (gd od role : List Char) : List Char :=
  escL gd ++ ':' :: (od ++ ':' :: role)

def viewerChars : List Char := ['V', 'i', 'e', 'w', 'e', 'r']

def editorChars : List Char := ['E', 'd', 'i', 't', 'o', 'r']

theorem viewer_entry_data (g o : String) :
    (escapeColon g ++ ":" ++ o ++ ":Viewer").data = entryData g.data o.data viewerChars := by
  simp [entryData, escapeColon, data_app, viewerChars,
    show (":" : String).data = [':'] from rfl,
    show (":Viewer" : String).data = ':' :: ['V', 'i', 'e', 'w', 'e', 'r'] from rfl]

theorem editor_entry_data (g o : String) :
    (escapeColon g ++ ":" ++ o ++ ":Editor").data = entryData g.data o.data editorChars := by
  simp [entryData, escapeColon, data_app, editorChars,
    show (":" : String).data = [':'] from rfl,
    show (":Editor" : String).data = ':' :: ['E', 'd', 'i', 't', 'o', 'r'] from rfl]

theorem self_entry_data (q : String) :
    (q ++ ":" ++ q ++ ":Viewer").data = q.data ++ ':' :: (q.data ++ ':' :: viewerChars) := by
  simp [data_app, viewerChars,
    show (":" : String).data = [':'] from rfl,
    show (":Viewer" : String).data = ':' :: ['V', 'i', 'e', 'w', 'e', 'r'] from rfl]

theorem entryData_head_ok (gd od role : List Char)
    (hg : gd.head?.all (fun c => !isSpaceGo c) = true) :
    (entryData gd od role).head?.all (fun c => !isSpaceGo c) = true := by
  cases gd with
  | nil => simp [entryData, escL, isSpaceGo]
  | cons c rest =>
      by_cases hc : c = ':'
      · simp [entryData, escL, hc, isSpaceGo]
      · simp only [List.head?_cons, Option.all_some] at hg
        simp [entryData, escL, hc, hg]

theorem entryData_rev_head_ok (gd od role : List Char) (c : Char)
    (hrev : role.reverse.head? = some c) (hc : isSpaceGo c = false) :
    (entryData gd od role).reverse.head?.all (fun c => !isSpaceGo c) = true := by
  cases hr : role.reverse with
  | nil => rw [hr] at hrev; cases hrev
  | cons d tl =>
      rw [hr] at hrev
      have hd : d = c := by cases hrev; rfl
      subst hd
      simp [entryData, List.reverse_append, List.reverse_cons, hr, List.head?_append,
        List.append_assoc, hc]

theorem comma_not_mem_entryData {gd od role : List Char}
    (hg : ',' ∉ gd) (ho : ',' ∉ od) (hr : ',' ∉ role) :
    ',' ∉ entryData gd od role := by
  intro h
  rcases List.mem_append.1 h with h1 | h2
  · rcases mem_escL h1 with h' | h' | h'
    · exact hg h'
    · exact absurd h' (by decide)
    · exact absurd h' (by decide)
  · rcases List.mem_cons.1 h2 with h' | h'
    · exact absurd h' (by decide)
    · rcases List.mem_append.1 h' with h3 | h4
      · exact ho h3
      · rcases List.mem_cons.1 h4 with h5 | h5
        · exact absurd h5 (by decide)
        · exact hr h5

theorem viewer_entry_eq_self_iff {g o q : String}
    (ho : ':' ∉ o.data) (hq : ':' ∉ q.data) :
    escapeColon g ++ ":" ++ o ++ ":Viewer" = q ++ ":" ++ q ++ ":Viewer" ↔ o = q ∧ g = q := by
  constructor
  · intro h
    have hd := congrArg String.data h
    rw [viewer_entry_data, self_entry_data] at hd
    have hd' : (escL g.data ++ ':' :: o.data) ++ ':' :: viewerChars
        = (q.data ++ ':' :: q.data) ++ ':' :: viewerChars := by
      simpa [entryData, List.append_assoc] using hd
    have hmid := List.append_cancel_right hd'
    have hrev : o.data.reverse ++ ':' :: (escL g.data).reverse
        = q.data.reverse ++ ':' :: q.data.reverse := by
      have := congrArg List.reverse hmid
      simpa [List.reverse_append, List.append_assoc] using this
    have hni : (':' : Char) ∉ o.data.reverse := fun hm => ho (List.mem_reverse.1 hm)
    have hnq : (':' : Char) ∉ q.data.reverse := fun hm => hq (List.mem_reverse.1 hm)
    obtain ⟨h1, h2⟩ := append_sep_inj hrev hni hnq
    have hoq : o.data = q.data := by
      have := congrArg List.reverse h1
      simpa using this
    have hgq : escL g.data = q.data := by
      have := congrArg List.reverse h2
      simpa using this
    refine ⟨string_ext hoq, string_ext ?_⟩
    have hno : ':' ∉ escL g.data := hgq ▸ hq
    rw [← escL_no_colon_out hno, hgq]
  · rintro ⟨rfl, rfl⟩
    have : escapeColon g = g := string_ext (escL_of_no_colon hq)
    rw [this]

theorem editor_entry_ne_self (g o q : String) :
    escapeColon g ++ ":" ++ o ++ ":Editor" ≠ q ++ ":" ++ q ++ ":Viewer" := by
  intro h
  have hd := congrArg String.data h
  rw [editor_entry_data, self_entry_data] at hd
  have := congrArg List.reverse hd
  simp [entryData, editorChars, viewerChars, List.reverse_append,
    List.append_assoc] at this

theorem splitOnComma_joinComma (es : List String) (hne : es ≠ [])
    (hcf : ∀ e ∈ es, ',' ∉ e.data) :
    splitOnComma (joinComma es) = es := by
  unfold splitOnComma joinComma
  rw [show (String.mk ([','].intercalate (es.map String.data))).data
      = [','].intercalate (es.map String.data) from rfl]
  rw [List.splitOn_intercalate (es.map String.data) ','
    (by
      intro l hl
      obtain ⟨e, he, rfl⟩ := List.mem_map.1 hl
      exact hcf e he)
    (by simpa using hne)]
  rw [List.map_map, show String.mk ∘ String.data = id from funext mk_data, List.map_id]

theorem self_entry_ne_empty (q : String) : q ++ ":" ++ q ++ ":Viewer" ≠ "" := by
  intro h
  have hd := congrArg String.data h
  rw [self_entry_data] at hd
  simp [viewerChars] at hd

theorem orgMappingContains_empty (q : String) : OrgMappingContains "" q = false := by
  have h : trimSpace "" = "" := rfl
  simp [OrgMappingContains, splitOnComma, show ("" : String).data = [] from rfl,
    List.splitOn_nil, h]
  exact fun hcontra => (self_entry_ne_empty q) hcontra.symm

theorem trim_viewer_entry (g o : String)
    (hhead : g.data.head?.all (fun c => !isSpaceGo c) = true) :
    trimSpace (escapeColon g ++ ":" ++ o ++ ":Viewer")
      = escapeColon g ++ ":" ++ o ++ ":Viewer" := by
  apply trimSpace_eq_self
  · rw [viewer_entry_data]
    exact entryData_head_ok _ _ _ hhead
  · rw [viewer_entry_data]
    exact entryData_rev_head_ok _ _ _ 'r' (by decide) (by decide)

theorem trim_editor_entry (g o : String)
    (hhead : g.data.head?.all (fun c => !isSpaceGo c) = true) :
    trimSpace (escapeColon g ++ ":" ++ o ++ ":Editor")
      = escapeColon g ++ ":" ++ o ++ ":Editor" := by
  apply trimSpace_eq_self
  · rw [editor_entry_data]
    exact entryData_head_ok _ _ _ hhead
  · rw [editor_entry_data]
    exact entryData_rev_head_ok _ _ _ 'r' (by decide) (by decide)

theorem orgMappingContains_join (es : List String) (q : String) (hne : es ≠ [])
    (hcf : ∀ e ∈ es, ',' ∉ e.data)
    (htrim : ∀ e ∈ es, trimSpace e = e) :
    OrgMappingContains (joinComma es) q = true ↔ (q ++ ":" ++ q ++ ":Viewer") ∈ es := by
  unfold OrgMappingContains
  rw [splitOnComma_joinComma es hne hcf, List.any_eq_true]
  constructor
  · rintro ⟨e, he, hbeq⟩
    rw [htrim e he] at hbeq
    exact (beq_iff_eq.1 hbeq) ▸ he
  · intro hmem
    refine ⟨_, hmem, ?_⟩
    rw [htrim _ hmem]
    simp

theorem self_mem_specEntries_iff {t : TenantMapping} {q : String}
    (ho : ':' ∉ t.orgID.data) (hq : ':' ∉ q.data) :
    (q ++ ":" ++ q ++ ":Viewer") ∈ specEntriesOfTenant t
      ↔ t.orgID = q ∧ q ∈ t.viewerGroups := by
  unfold specEntriesOfTenant
  rw [List.mem_append]
  constructor
  · rintro (h | h)
    · obtain ⟨g, hg, he⟩ := List.mem_map.1 h
      obtain ⟨h1, h2⟩ := (viewer_entry_eq_self_iff ho hq).1 he
      exact ⟨h1, h2 ▸ hg⟩
    · obtain ⟨g, hg, he⟩ := List.mem_map.1 h
      exact absurd he (editor_entry_ne_self g t.orgID q)
  · rintro ⟨h1, h2⟩
    exact Or.inl (List.mem_map.2 ⟨q, h2, (viewer_entry_eq_self_iff ho hq).2 ⟨h1, rfl⟩⟩)

/-- The claim's right-hand side, literally: some tenant with the queried
orgID produced an entry whose literal form is `orgID:orgID:Viewer`. -/
def producesSelfEntry (ts : List TenantMapping) (orgID : String) : Bool :=
  ts.any (fun t => t.orgID == orgID
    && (specEntriesOfTenant t).contains (orgID ++ ":" ++ orgID ++ ":Viewer"))

/-- Whether an `Except` result is an error. -/
def isErr {ε α : Type} : Except ε α → Bool
  | .error _ => true
  | .ok _ => false

theorem lookup_map_replace (m : Settings) (k k' : String) (v : SettingsVal)
    (h : k' ≠ k) :
    lookupSettings (m.map (fun p => if p.1 = k then (k, v) else p)) k'
      = lookupSettings m k' := by
  induction m with
  | nil => rfl
  | cons p rest ih =>
      by_cases hp : p.1 = k
      · rw [List.map_cons, if_pos hp]
        show (if k = k' then some v else _) = (if p.1 = k' then some p.2 else _)
        rw [if_neg (fun he => h he.symm), if_neg (fun he => h (hp ▸ he).symm)]
        exact ih
      · rw [List.map_cons, if_neg hp]
        show (if p.1 = k' then some p.2 else _) = (if p.1 = k' then some p.2 else _)
        by_cases hpk : p.1 = k'
        · rw [if_pos hpk, if_pos hpk]
        · rw [if_neg hpk, if_neg hpk]
          exact ih

theorem lookup_append_single (m : Settings) (k k' : String) (v : SettingsVal)
    (h : k' ≠ k) :
    lookupSettings (m ++ [(k, v)]) k' = lookupSettings m k' := by
  induction m with
  | nil =>
      show (if k = k' then some v else lookupSettings [] k') = none
      rw [if_neg (fun he => h he.symm)]
      rfl
  | cons p rest ih =>
      show (if p.1 = k' then some p.2 else _) = (if p.1 = k' then some p.2 else _)
      by_cases hpk : p.1 = k'
      · rw [if_pos hpk, if_pos hpk]
      · rw [if_neg hpk, if_neg hpk]
        exact ih

theorem lookupSettings_setKey_ne (m : Settings) (k k' : String) (v : SettingsVal)
    (h : k' ≠ k) : lookupSettings (setKey m k v) k' = lookupSettings m k' := by
  unfold setKey
  by_cases hmem : m.any (fun p => p.1 == k)
  · rw [if_pos hmem]
    exact lookup_map_replace m k k' v h
  · rw [if_neg hmem]
    exact lookup_append_single m k k' v h

/-! ## Claim theorems -/

/-- C1 (amended): restricted to tenant sets whose group names and org IDs
contain no commas, whose group names do not begin with whitespace, and whose
org IDs (including the queried one) contain no colons,
`OrgMappingContains (BuildOrgMapping ts) orgID` is true exactly when some
tenant in `ts` with that orgID lists `orgID` itself among its viewer groups
— i.e. produced the literal entry `orgID:orgID:Viewer`. Without those
restrictions the equivalence fails (see the counterexample). -/
theorem contains_encode_reflects_self_entry (ts : List TenantMapping) (orgID : String)
    (hg : ∀ t ∈ ts, ∀ g ∈ t.viewerGroups ++ t.editorGroups,
      ',' ∉ g.data ∧ g.data.head?.all (fun c => !isSpaceGo c) = true)
    (ho : ∀ t ∈ ts, ',' ∉ t.orgID.data ∧ ':' ∉ t.orgID.data)
    (hq : ',' ∉ orgID.data ∧ ':' ∉ orgID.data) :
    OrgMappingContains (BuildOrgMapping ts) orgID = true
      ↔ ∃ t ∈ ts, t.orgID = orgID ∧ orgID ∈ t.viewerGroups := by
  rw [buildOrgMapping_flatMap]
  by_cases hes : ts.flatMap specEntriesOfTenant = []
  · rw [hes, show joinComma [] = "" from rfl, orgMappingContains_empty]
    simp only [Bool.false_eq_true, false_iff]
    rintro ⟨t, ht, _, h2⟩
    have hmem : (escapeColon orgID ++ ":" ++ t.orgID ++ ":Viewer")
        ∈ ts.flatMap specEntriesOfTenant :=
      List.mem_flatMap.2
        ⟨t, ht, List.mem_append.2 (Or.inl (List.mem_map.2 ⟨orgID, h2, rfl⟩))⟩
    rw [hes] at hmem
    exact List.not_mem_nil _ hmem
  · have hcf : ∀ e ∈ ts.flatMap specEntriesOfTenant, ',' ∉ e.data := by
      intro e he
      obtain ⟨t, ht, hmem⟩ := List.mem_flatMap.1 he
      rcases List.mem_append.1 hmem with h | h
      · obtain ⟨g, hgr, rfl⟩ := List.mem_map.1 h
        rw [viewer_entry_data]
        exact comma_not_mem_entryData
          (hg t ht g (List.mem_append.2 (Or.inl hgr))).1 (ho t ht).1 (by decide)
      · obtain ⟨g, hgr, rfl⟩ := List.mem_map.1 h
        rw [editor_entry_data]
        exact comma_not_mem_entryData
          (hg t ht g (List.mem_append.2 (Or.inr hgr))).1 (ho t ht).1 (by decide)
    have htrim : ∀ e ∈ ts.flatMap specEntriesOfTenant, trimSpace e = e := by
      intro e he
      obtain ⟨t, ht, hmem⟩ := List.mem_flatMap.1 he
      rcases List.mem_append.1 hmem with h | h
      · obtain ⟨g, hgr, rfl⟩ := List.mem_map.1 h
        exact trim_viewer_entry g t.orgID (hg t ht g (List.mem_append.2 (Or.inl hgr))).2
      · obtain ⟨g, hgr, rfl⟩ := List.mem_map.1 h
        exact trim_editor_entry g t.orgID (hg t ht g (List.mem_append.2 (Or.inr hgr))).2
    rw [orgMappingContains_join _ _ hes hcf htrim, List.mem_flatMap]
    constructor
    · rintro ⟨t, ht, hmem⟩
      exact ⟨t, ht, (self_mem_specEntries_iff (ho t ht).2 hq.2).1 hmem⟩
    · rintro ⟨t, ht, h1, h2⟩
      exact ⟨t, ht, (self_mem_specEntries_iff (ho t ht).2 hq.2).2 ⟨h1, h2⟩⟩

/-- C1, as frozen, is false on the code: for the single tenant with orgID
`"o"` and viewer group `"a,o"`, no emitted entry has the literal form
`o:o:Viewer`, yet the comma inside the group name makes the comma-split of
the encoded document produce a part equal to `o:o:Viewer`, so
`OrgMappingContains` reports true while no tenant produced a self entry. -/
theorem contains_encode_exact_claim_counterexample :
    OrgMappingContains (BuildOrgMapping [⟨"o", ["a,o"], []⟩]) "o" = true
      ∧ producesSelfEntry [⟨"o", ["a,o"], []⟩] "o" = false := by
  constructor
  · decide
  · decide

theorem contains_encode_reflects_self_entry_witness :
    OrgMappingContains (BuildOrgMapping [⟨"org1", ["team-a"], []⟩]) "org1" = true
      ↔ ∃ t ∈ [(⟨"org1", ["team-a"], []⟩ : TenantMapping)],
          t.orgID = "org1" ∧ "org1" ∈ t.viewerGroups :=
  contains_encode_reflects_self_entry _ _ (by decide) (by decide) (by decide)

/-- C2: `BuildOrgMapping` emits, per tenant in input order, one entry per
viewer group then one per editor group (`subject:orgID:Role` with the
subject colon-escaped so that every colon in the output subject is preceded
by a backslash), joined by commas; a tenant with no groups contributes zero
entries (the code has no admin-group field, so the admin category is always
empty), and the empty input yields the empty string. -/
theorem buildOrgMapping_format (ts : List TenantMapping) :
    BuildOrgMapping ts = joinComma (ts.flatMap specEntriesOfTenant)
      ∧ BuildOrgMapping [] = ""
      ∧ (∀ o : String, specEntriesOfTenant ⟨o, [], []⟩ = [])
      ∧ ∀ g : String, ∀ p : Char, colonsEscapedFrom p (escapeColon g).data = true :=
  ⟨buildOrgMapping_flatMap ts, rfl, fun _ => rfl,
    fun g p => escL_colonsEscaped g.data p⟩

/-- C8: `OrgMappingContains doc orgID` is true iff some comma-separated part
of `doc`, after trimming surrounding whitespace, literally equals
`orgID:orgID:Viewer`; entries of any other form (a group entry for the org,
or an Editor self entry) do not count. -/
theorem orgMappingContains_characterization (doc orgID : String) :
    (OrgMappingContains doc orgID = true
      ↔ ∃ part ∈ splitOnComma doc, trimSpace part = orgID ++ ":" ++ orgID ++ ":Viewer")
      ∧ OrgMappingContains "team-a:org-1:Viewer" "org-1" = false
      ∧ OrgMappingContains "org-1:org-1:Editor" "org-1" = false
      ∧ OrgMappingContains " org-1:org-1:Viewer ,x" "org-1" = true := by
  refine ⟨?_, by decide, by decide, by decide⟩
  unfold OrgMappingContains
  rw [List.any_eq_true]
  constructor
  · rintro ⟨p, hp, h⟩
    exact ⟨p, hp, beq_iff_eq.1 h⟩
  · rintro ⟨p, hp, h⟩
    exact ⟨p, hp, beq_iff_eq.2 h⟩

/-- C3: creating a tenant whose tenantID is already held by a different
tenant in the listed set fails with the conflict error and performs no
further action — the resource is returned unmodified (no external-name or
observation marking) and the SSO world is untouched (no fetch, no write). -/
theorem create_duplicate_conflict (cluster : List Tenant) (cr : Tenant) (now : String)
    (w : SSOWorld)
    (h : ∃ t ∈ cluster, t.uid ≠ cr.uid ∧ t.forProvider.tenantID = cr.forProvider.tenantID) :
    Create cluster false cr now w = ⟨.error (.conflict cr.forProvider.tenantID), cr, w⟩ := by
  obtain ⟨t, ht, h1, h2⟩ := h
  have hany : cluster.any
      (fun t => t.uid != cr.uid && t.forProvider.tenantID == cr.forProvider.tenantID)
        = true :=
    List.any_eq_true.2 ⟨t, ht, by simp [h1, h2]⟩
  simp [Create, validateUniqueTenantID, hany]

def rpDefault : RetentionPolicy := ⟨"30d", "30d", "30d", "30d"⟩

def emptyObservation : TenantObservation := ⟨"", "", [], [], [], ⟨"", "", "", ""⟩, ""⟩

def crAcme : Tenant :=
  ⟨1, "", false, ⟨"acme", "org-1", [], ["team-a"], [], rpDefault⟩, emptyObservation⟩

def tAcmeExisting : Tenant :=
  ⟨2, "acme", false, ⟨"acme", "org-2", [], [], [], rpDefault⟩, emptyObservation⟩

def wReady : SSOWorld := ⟨.ok (.map [("clientId", .str "my-client")]), false, 0, []⟩

theorem create_duplicate_conflict_witness :
    Create [tAcmeExisting] false crAcme "2025-01-01T00:00:00Z" wReady
      = ⟨.error (.conflict "acme"), crAcme, wReady⟩ :=
  create_duplicate_conflict [tAcmeExisting] crAcme "2025-01-01T00:00:00Z" wReady
    ⟨tAcmeExisting, by decide, by decide, by decide⟩

/-- C4: Update always reports success, and rewrites the observation from
the desired spec (including a changed orgID) with the fresh timestamp,
regardless of the sync outcome (any fetch or update failure, or a failing
List call); the spec itself is left unchanged. -/
theorem update_always_succeeds (cluster : List Tenant) (listFails : Bool) (cr : Tenant)
    (now : String) (w : SSOWorld) :
    (Update cluster listFails cr now w).res = .ok ()
      ∧ (Update cluster listFails cr now w).cr.atProvider
        = ⟨cr.forProvider.tenantID, cr.forProvider.orgID, cr.forProvider.admins,
            cr.forProvider.viewerGroups, cr.forProvider.editorGroups,
            cr.forProvider.retention, now⟩
      ∧ (Update cluster listFails cr now w).cr.forProvider = cr.forProvider :=
  ⟨rfl, rfl, rfl⟩

/-- C7: `SyncOrgMapping` errors exactly when the fetch step fails for a
reason other than NotFound (a client error, or a payload that is not a
settings map) or the replace fails; a NotFound fetch is treated as the
empty settings object, and the computed mapping is then written under the
`orgMapping` key of that empty object. -/
theorem syncOrgMapping_error_characterization (ts : List TenantMapping)
    (fetch : FetchOutcome) (uf : Bool) (fc : Nat) (wr : List Settings) :
    (isErr (SyncOrgMapping ⟨fetch, uf, fc, wr⟩ ts).1
        = match fetch with
          | .failure => true
          | .ok .nonMap => true
          | _ => uf)
      ∧ SyncOrgMapping ⟨.notFound, false, fc, wr⟩ ts
        = (.ok (), ⟨.notFound, false, fc + 1,
            wr ++ [setKey [] "orgMapping" (.str (BuildOrgMapping ts))]⟩) := by
  constructor
  · cases fetch with
    | notFound => cases uf <;> rfl
    | failure => rfl
    | ok p =>
        cases p with
        | map m => cases uf <;> rfl
        | nonMap => rfl
  · rfl

/-- C6: every successful `SyncOrgMapping` write appends exactly one settings
object to the write log: the fetched settings with only the `orgMapping`
key replaced; every other key reads back exactly as fetched. -/
theorem syncOrgMapping_preserves_other_keys (w : SSOWorld) (ts : List TenantMapping)
    (hok : (SyncOrgMapping w ts).1 = .ok ()) :
    ∃ m : Settings, (getOrInitSettings w).1 = .ok m
      ∧ (SyncOrgMapping w ts).2.written
        = w.written ++ [setKey m "orgMapping" (.str (BuildOrgMapping ts))]
      ∧ ∀ k, k ≠ "orgMapping" →
          lookupSettings (setKey m "orgMapping" (.str (BuildOrgMapping ts))) k
            = lookupSettings m k := by
  obtain ⟨fetch, uf, fc, wr⟩ := w
  cases fetch with
  | notFound =>
      cases uf with
      | true => simp [SyncOrgMapping, getOrInitSettings, recordFetch] at hok
      | false =>
          refine ⟨[], rfl, rfl, ?_⟩
          intro k hk
          exact lookupSettings_setKey_ne [] "orgMapping" k _ hk
  | failure => simp [SyncOrgMapping, getOrInitSettings, recordFetch] at hok
  | ok p =>
      cases p with
      | nonMap => simp [SyncOrgMapping, getOrInitSettings, recordFetch] at hok
      | map m =>
          cases uf with
          | true => simp [SyncOrgMapping, getOrInitSettings, recordFetch] at hok
          | false =>
              refine ⟨m, rfl, rfl, ?_⟩
              intro k hk
              exact lookupSettings_setKey_ne m "orgMapping" k _ hk

theorem syncOrgMapping_preserves_other_keys_witness :
    ∃ m : Settings, (getOrInitSettings wReady).1 = .ok m
      ∧ (SyncOrgMapping wReady [⟨"org-1", ["team-a"], []⟩]).2.written
        = wReady.written
            ++ [setKey m "orgMapping" (.str (BuildOrgMapping [⟨"org-1", ["team-a"], []⟩]))]
      ∧ ∀ k, k ≠ "orgMapping" →
          lookupSettings
            (setKey m "orgMapping" (.str (BuildOrgMapping [⟨"org-1", ["team-a"], []⟩]))) k
            = lookupSettings m k :=
  syncOrgMapping_preserves_other_keys wReady [⟨"org-1", ["team-a"], []⟩] rfl

/-- C5: during Observe of an up-to-date, existing, non-deleting tenant, the
external settings fetch happens iff the tenant declares a viewer or editor
group; when the fetched map's document does not contain the tenant's orgID
the result flips to not-up-to-date; and when the fetch fails outright the
error is ignored and the result stays existing and up to date. -/
theorem observe_drift_check (cluster : List Tenant) (listFails : Bool) (cr : Tenant)
    (w : SSOWorld)
    (hname : ¬cr.externalName = "")
    (hdel : cr.deletionTimestamp = false)
    (hupd : isUpToDate cr = true) :
    ((Observe cluster listFails cr w).world.fetchCount
        = w.fetchCount
            + (if cr.forProvider.viewerGroups.length = 0
                ∧ cr.forProvider.editorGroups.length = 0 then 0 else 1))
      ∧ (∀ m : Settings, w.fetch = .ok (.map m) →
          ¬(cr.forProvider.viewerGroups.length = 0
              ∧ cr.forProvider.editorGroups.length = 0) →
          OrgMappingContains (extractOrgMapping m) cr.forProvider.orgID = false →
          (Observe cluster listFails cr w).resourceUpToDate = false)
      ∧ (w.fetch = .failure →
          (Observe cluster listFails cr w).resourceExists = true
            ∧ (Observe cluster listFails cr w).resourceUpToDate = true) := by
  by_cases hg : cr.forProvider.viewerGroups.length = 0
      ∧ cr.forProvider.editorGroups.length = 0
  · have hO : Observe cluster listFails cr w = ⟨true, true, w⟩ := by
      unfold Observe
      rw [if_neg hname, if_neg (by simp [hdel]), if_pos hupd]
      unfold isGrafanaDrifted
      rw [if_pos hg]
      rfl
    refine ⟨?_, ?_, ?_⟩
    · rw [hO, if_pos hg]
      rfl
    · intro m _ hg'
      exact absurd hg hg'
    · intro _
      rw [hO]
      exact ⟨rfl, rfl⟩
  · cases hf : w.fetch with
    | notFound =>
        have hO : Observe cluster listFails cr w = ⟨true, false, recordFetch w⟩ := by
          unfold Observe
          rw [if_neg hname, if_neg (by simp [hdel]), if_pos hupd]
          unfold isGrafanaDrifted
          rw [if_neg hg, hf]
          rfl
        refine ⟨?_, ?_, ?_⟩
        · rw [hO, if_neg hg]
          rfl
        · intro m hm
          cases hm
        · intro hfe
          cases hfe
    | failure =>
        have hO : Observe cluster listFails cr w = ⟨true, true, recordFetch w⟩ := by
          unfold Observe
          rw [if_neg hname, if_neg (by simp [hdel]), if_pos hupd]
          unfold isGrafanaDrifted
          rw [if_neg hg, hf]
        refine ⟨?_, ?_, ?_⟩
        · rw [hO, if_neg hg]
          rfl
        · intro m hm
          cases hm
        · intro _
          rw [hO]
          exact ⟨rfl, rfl⟩
    | ok p =>
        cases p with
        | nonMap =>
            have hO : Observe cluster listFails cr w = ⟨true, false, recordFetch w⟩ := by
              unfold Observe
              rw [if_neg hname, if_neg (by simp [hdel]), if_pos hupd]
              unfold isGrafanaDrifted
              rw [if_neg hg, hf]
              rfl
            refine ⟨?_, ?_, ?_⟩
            · rw [hO, if_neg hg]
              rfl
            · intro m hm
              cases hm
            · intro hfe
              cases hfe
        | map m0 =>
            have hO : Observe cluster listFails cr w
                = ⟨true,
                    !(!OrgMappingContains (extractOrgMapping m0) cr.forProvider.orgID),
                    recordFetch w⟩ := by
              unfold Observe
              rw [if_neg hname, if_neg (by simp [hdel]), if_pos hupd]
              unfold isGrafanaDrifted
              rw [if_neg hg, hf]
            refine ⟨?_, ?_, ?_⟩
            · rw [hO, if_neg hg]
              rfl
            · intro m hm hg' hC
              injection hm with hp
              injection hp with hmm
              subst hmm
              rw [hO]
              simpa using hC
            · intro hfe
              cases hfe

def crUpToDate : Tenant :=
  ⟨3, "acme", false, ⟨"acme", "org-1", [], ["team-a"], [], rpDefault⟩,
    ⟨"acme", "org-1", [], ["team-a"], [], rpDefault, "2025-01-01T00:00:00Z"⟩⟩

theorem observe_drift_check_witness :
    ((Observe [] false crUpToDate wReady).world.fetchCount
        = wReady.fetchCount
            + (if crUpToDate.forProvider.viewerGroups.length = 0
                ∧ crUpToDate.forProvider.editorGroups.length = 0 then 0 else 1))
      ∧ (∀ m : Settings, wReady.fetch = .ok (.map m) →
          ¬(crUpToDate.forProvider.viewerGroups.length = 0
              ∧ crUpToDate.forProvider.editorGroups.length = 0) →
          OrgMappingContains (extractOrgMapping m) crUpToDate.forProvider.orgID = false →
          (Observe [] false crUpToDate wReady).resourceUpToDate = false)
      ∧ (wReady.fetch = .failure →
          (Observe [] false crUpToDate wReady).resourceExists = true
            ∧ (Observe [] false crUpToDate wReady).resourceUpToDate = true) :=
  observe_drift_check [] false crUpToDate wReady (by decide) rfl (by decide)

/-- C9: for a tenant declaring at least one viewer or editor group, the
drift check reports drift (ok true, no error) in each degenerate external
state: provider never configured (404), a non-map settings payload, and an
`orgMapping` key that is missing or not a string. -/
theorem isGrafanaDrifted_degenerate (cr : Tenant) (uf : Bool) (fc : Nat)
    (wr : List Settings)
    (h : ¬(cr.forProvider.viewerGroups.length = 0
        ∧ cr.forProvider.editorGroups.length = 0)) :
    (isGrafanaDrifted cr ⟨.notFound, uf, fc, wr⟩).1 = .ok true
      ∧ (isGrafanaDrifted cr ⟨.ok .nonMap, uf, fc, wr⟩).1 = .ok true
      ∧ (∀ m : Settings, lookupSettings m "orgMapping" = none →
          (isGrafanaDrifted cr ⟨.ok (.map m), uf, fc, wr⟩).1 = .ok true)
      ∧ ∀ m : Settings, ∀ n : Nat, lookupSettings m "orgMapping" = some (.blob n) →
          (isGrafanaDrifted cr ⟨.ok (.map m), uf, fc, wr⟩).1 = .ok true := by
  refine ⟨?_, ?_, ?_, ?_⟩
  · unfold isGrafanaDrifted
    rw [if_neg h]
  · unfold isGrafanaDrifted
    rw [if_neg h]
  · intro m hm
    unfold isGrafanaDrifted
    rw [if_neg h]
    show Except.ok (!OrgMappingContains (extractOrgMapping m) cr.forProvider.orgID)
      = .ok true
    unfold extractOrgMapping
    rw [hm, orgMappingContains_empty]
    rfl
  · intro m n hm
    unfold isGrafanaDrifted
    rw [if_neg h]
    show Except.ok (!OrgMappingContains (extractOrgMapping m) cr.forProvider.orgID)
      = .ok true
    unfold extractOrgMapping
    rw [hm, orgMappingContains_empty]
    rfl

theorem isGrafanaDrifted_degenerate_witness :
    (isGrafanaDrifted crUpToDate ⟨.notFound, false, 0, []⟩).1 = .ok true
      ∧ (isGrafanaDrifted crUpToDate ⟨.ok .nonMap, false, 0, []⟩).1 = .ok true
      ∧ (∀ m : Settings, lookupSettings m "orgMapping" = none →
          (isGrafanaDrifted crUpToDate ⟨.ok (.map m), false, 0, []⟩).1 = .ok true)
      ∧ ∀ m : Settings, ∀ n : Nat, lookupSettings m "orgMapping" = some (.blob n) →
          (isGrafanaDrifted crUpToDate ⟨.ok (.map m), false, 0, []⟩).1 = .ok true :=
  isGrafanaDrifted_degenerate crUpToDate false 0 [] (by decide)

/-- C10: with no deletion marker, Observe reports the resource absent
exactly when the external-name annotation is empty — the observation plays
no part in existence; and a tenant with a set external name, an entirely
empty observation and a non-empty desired tenantID is reported as existing
and not up to date. -/
theorem observe_existence_from_external_name (cluster : List Tenant) (listFails : Bool)
    (cr : Tenant) (w : SSOWorld) (hdel : cr.deletionTimestamp = false) :
    ((Observe cluster listFails cr w).resourceExists = false ↔ cr.externalName = "")
      ∧ (cr.externalName ≠ "" →
          cr.atProvider = ⟨"", "", [], [], [], ⟨"", "", "", ""⟩, ""⟩ →
          cr.forProvider.tenantID ≠ "" →
          (Observe cluster listFails cr w).resourceExists = true
            ∧ (Observe cluster listFails cr w).resourceUpToDate = false) := by
  by_cases hname : cr.externalName = ""
  · have hO : Observe cluster listFails cr w = ⟨false, false, w⟩ := by
      unfold Observe
      rw [if_pos hname]
    constructor
    · rw [hO]
      exact ⟨fun _ => hname, fun _ => rfl⟩
    · intro hn
      exact absurd hname hn
  · have hex : (Observe cluster listFails cr w).resourceExists = true := by
      unfold Observe
      rw [if_neg hname, if_neg (by simp [hdel])]
      by_cases hupd : isUpToDate cr = true
      · rw [if_pos hupd]
        rcases hdr : isGrafanaDrifted cr w with ⟨r, w1⟩
        cases r <;> rfl
      · rw [if_neg hupd]
    constructor
    · rw [hex]
      simp [hname]
    · intro _ hobs htid
      have hupd : isUpToDate cr = false := by
        unfold isUpToDate
        rw [hobs]
        simp [htid]
      have hO : Observe cluster listFails cr w = ⟨true, false, w⟩ := by
        unfold Observe
        rw [if_neg hname, if_neg (by simp [hdel]), if_neg (by simp [hupd])]
      exact ⟨by rw [hO], by rw [hO]⟩

def crNamedEmptyObs : Tenant :=
  ⟨4, "acme", false, ⟨"acme", "org-1", [], [], [], rpDefault⟩, emptyObservation⟩

theorem observe_existence_from_external_name_witness :
    ((Observe [] false crNamedEmptyObs wReady).resourceExists = false
        ↔ crNamedEmptyObs.externalName = "")
      ∧ (crNamedEmptyObs.externalName ≠ "" →
          crNamedEmptyObs.atProvider = ⟨"", "", [], [], [], ⟨"", "", "", ""⟩, ""⟩ →
          crNamedEmptyObs.forProvider.tenantID ≠ "" →
          (Observe [] false crNamedEmptyObs wReady).resourceExists = true
            ∧ (Observe [] false crNamedEmptyObs wReady).resourceUpToDate = false) :=
  observe_existence_from_external_name [] false crNamedEmptyObs wReady rfl

end OrgMapper
